import Mathlib

/-!
Verification development for the WGPU 3D model viewer.

The repository consists of `camera.rs` (a look-at camera, the `CameraUniform`
GPU record), `camera_controller.rs` (the orbit input router), `main.rs`
(application wiring) and `utils.rs`. The `orbit_camera` module referenced by
`main.rs` and `camera_controller.rs` is not part of the provided sources; its
mutators are modelled from the specification, as marked on each definition.

Machine floats (`f32`) are idealised as exact rationals; raw input scalars
from the windowing layer are likewise carried as rationals.
-/

/-- Three-dimensional vector over the rational model of `f32`
(mirrors `cgmath::Vector3<f32>` / `cgmath::Point3<f32>`). -/
structure Vec3 where
  x : ℚ
  y : ℚ
  z : ℚ
  deriving DecidableEq, Repr

/-- Modelled from the spec: `OrbitCameraBounds` of the missing `orbit_camera`
module — optional `min_distance`, `max_distance`, `min_pitch`, `max_pitch`
(each `Option<f32>`); absence means unconstrained on that axis. -/
structure OrbitCameraBounds where
  min_distance : Option ℚ
  max_distance : Option ℚ
  min_pitch : Option ℚ
  max_pitch : Option ℚ
  deriving DecidableEq, Repr

/-- Exact value of the 32-bit float machine epsilon `f32::EPSILON` (2 ^ (-23)),
the "small positive epsilon" the spec uses as implicit distance floor. -/
def F32_EPSILON : ℚ := 1 / 8388608

/-- Exact value of the 32-bit float constant `f32::consts::FRAC_PI_2`
(the `f32` nearest to the real number pi / 2). -/
def FRAC_PI_2 : ℚ := 13176795 / 8388608

/-- Small pitch safety margin epsilon; the spec suggests 0.01 rad. -/
def PITCH_EPS : ℚ := 1 / 100

/-- Modelled from the spec: the state of the missing `orbit_camera` module —
spherical coordinates, orbit target and bounds, plus projection parameters. -/
structure OrbitCamera where
  distance : ℚ
  pitch : ℚ
  yaw : ℚ
  target : Vec3
  bounds : OrbitCameraBounds
  aspect : ℚ
  fovy : ℚ
  znear : ℚ
  zfar : ℚ
  deriving DecidableEq, Repr

/-- Modelled from the spec: `OrbitCamera::new(distance, pitch, yaw, target,
aspect)` of the missing `orbit_camera` module. Bounds start unconstrained; the
spec does not pin the initial projection constants, so the model fixes
representative values for `fovy`, `znear`, `zfar` (no claim depends on them). -/
def OrbitCamera.new (distance pitch yaw : ℚ) (target : Vec3) (aspect : ℚ) : OrbitCamera :=
  { distance := distance
    pitch := pitch
    yaw := yaw
    target := target
    bounds := ⟨none, none, none, none⟩
    aspect := aspect
    fovy := 45
    znear := 1 / 10
    zfar := 100 }

/-- Clamp of a rational into `[lo, hi]`; agrees with `f32::clamp` whenever
`lo ≤ hi`. -/
def clampQ (lo hi x : ℚ) : ℚ := max lo (min x hi)

/-- Modelled from the spec: lower end of the effective distance interval —
`min_distance` where configured, else the implicit small positive floor. -/
def OrbitCameraBounds.distLo (b : OrbitCameraBounds) : ℚ :=
  b.min_distance.getD F32_EPSILON

/-- Modelled from the spec: `add_distance(delta)` of the missing
`orbit_camera` module — `distance += delta`, then clamp to
`[min_distance, max_distance]` where configured, with the small positive
epsilon as implicit floor when `min_distance` is unset. -/
def OrbitCamera.add_distance (c : OrbitCamera) (delta : ℚ) : OrbitCamera :=
  let lowered := max c.bounds.distLo (c.distance + delta)
  { c with distance :=
      match c.bounds.max_distance with
      | some hi => min lowered hi
      | none => lowered }

/-- Modelled from the spec: `add_yaw(delta)` of the missing `orbit_camera`
module — `yaw += delta`, no clamping. -/
def OrbitCamera.add_yaw (c : OrbitCamera) (delta : ℚ) : OrbitCamera :=
  { c with yaw := c.yaw + delta }

/-- Modelled from the spec: lower end of the effective pitch interval — the
intersection of the configured `min_pitch` with the hard safety bound
`-pi/2 + eps`. -/
def OrbitCameraBounds.pitchLo (b : OrbitCameraBounds) : ℚ :=
  match b.min_pitch with
  | some m => max m (-FRAC_PI_2 + PITCH_EPS)
  | none => -FRAC_PI_2 + PITCH_EPS

/-- Modelled from the spec: upper end of the effective pitch interval — the
intersection of the configured `max_pitch` with the hard safety bound
`pi/2 - eps`. -/
def OrbitCameraBounds.pitchHi (b : OrbitCameraBounds) : ℚ :=
  match b.max_pitch with
  | some m => min m (FRAC_PI_2 - PITCH_EPS)
  | none => FRAC_PI_2 - PITCH_EPS

/-- Modelled from the spec: `add_pitch(delta)` of the missing `orbit_camera`
module — `pitch += delta`, clamped to the intersection of the configured
`[min_pitch, max_pitch]` and the hard safety interval. -/
def OrbitCamera.add_pitch (c : OrbitCamera) (delta : ℚ) : OrbitCamera :=
  { c with pitch := clampQ c.bounds.pitchLo c.bounds.pitchHi (c.pitch + delta) }

/-- Modelled from the spec: `resize_projection(width, height)` of the missing
`orbit_camera` module — sets `aspect = width / height`, with a no-op guard
when `height == 0` so the previous aspect is retained instead of dividing by
zero. -/
def OrbitCamera.resize_projection (c : OrbitCamera) (width height : ℕ) : OrbitCamera :=
  if height = 0 then c
  else { c with aspect := (width : ℚ) / (height : ℚ) }

/-- The orbit camera constructed in `Application::new` (`main.rs`): distance
2.0, pitch 0, yaw 0, target at the origin, initial window 1280 x 720, and
`bounds.min_distance = Some(1.1)`. -/
def mainInitCamera : OrbitCamera :=
  let c := OrbitCamera.new 2 0 0 ⟨0, 0, 0⟩ (1280 / 720)
  { c with bounds := { c.bounds with min_distance := some (11 / 10) } }

/-! ## The input router (`camera_controller.rs`, authoritative source) -/

/-- The orbit `CameraController` of `camera_controller.rs`: two speeds and the
two mode flags. -/
structure CameraController where
  rotate_speed : ℚ
  zoom_speed : ℚ
  is_drag_rotate : Bool
  is_pan : Bool
  deriving DecidableEq, Repr

/-- `CameraController::new` — both flags start false. -/
def CameraController.new (rotate_speed zoom_speed : ℚ) : CameraController :=
  { rotate_speed := rotate_speed
    zoom_speed := zoom_speed
    is_drag_rotate := false
    is_pan := false }

/-- Scroll payload of a `DeviceEvent::MouseWheel`, mirroring
`winit::event::MouseScrollDelta` (the pixel variant keeps only the `y`
component the source reads). -/
inductive MouseScrollDelta where
  | LineDelta (x scroll : ℚ)
  | PixelDelta (scroll : ℚ)
  deriving DecidableEq, Repr

/-- Device events the router inspects, mirroring `winit::event::DeviceEvent`:
a button with its numeric id and pressed state, a wheel, a motion delta, and a
catch-all for every other variant. -/
inductive DeviceEvent where
  | Button (button : ℕ) (pressed : Bool)
  | MouseWheel (delta : MouseScrollDelta)
  | MouseMotion (dx dy : ℚ)
  | Other
  deriving DecidableEq, Repr

/-- Keyboard events fed to `process_keyed_events`: the left shift key with its
pressed state, or anything else. -/
inductive KeyEvent where
  | ShiftLeft (pressed : Bool)
  | OtherKey
  deriving DecidableEq, Repr

/-- A call the router makes against the orbit camera, recorded with its
argument values (the effect trace of one `process_events` call). -/
inductive CameraOp where
  | add_yaw (delta : ℚ)
  | add_pitch (delta : ℚ)
  | add_distance (delta : ℚ)
  | pan (dx dy : ℚ)
  deriving DecidableEq, Repr

/-- Scalar read out of a `MouseScrollDelta` by `process_events`: a line delta
is scaled by 1.0, a pixel delta contributes its `y` component. -/
def scrollValue : MouseScrollDelta → ℚ
  | .LineDelta _ scroll => scroll * 1
  | .PixelDelta scroll => scroll

/-- `CameraController::process_events` (non-macOS build, primary button id 1).
Returns the updated controller together with the list of camera calls made and
whether `window.request_redraw()` was invoked. -/
def CameraController.process_events (c : CameraController) (event : DeviceEvent) :
    CameraController × List CameraOp × Bool :=
  match event with
  | .Button button pressed =>
    if button = 1 then
      if c.is_pan then ({ c with is_pan := pressed }, [], false)
      else ({ c with is_drag_rotate := pressed }, [], false)
    else (c, [], false)
  | .MouseWheel delta =>
    let scroll_amount := -scrollValue delta
    (c, [.add_distance (scroll_amount * c.zoom_speed)], true)
  | .MouseMotion dx dy =>
    if c.is_drag_rotate then
      (c, [.add_yaw (-dx * c.rotate_speed), .add_pitch (dy * c.rotate_speed)], true)
    else if c.is_pan then
      (c, [.pan (dx * c.rotate_speed) (dy * c.rotate_speed)], true)
    else (c, [], false)
  | .Other => (c, [], false)

/-- `CameraController::process_keyed_events` — tracks the left shift modifier
into `is_pan`; every other key is ignored. -/
def CameraController.process_keyed_events (c : CameraController) (event : KeyEvent) :
    CameraController :=
  match event with
  | .ShiftLeft pressed => { c with is_pan := pressed }
  | .OtherKey => c

/-- One call against the router: either a device event through
`process_events` (only the state change is kept) or a keyboard event through
`process_keyed_events`. -/
inductive RouterEvent where
  | dev (e : DeviceEvent)
  | key (e : KeyEvent)
  deriving DecidableEq, Repr

/-- Router state after one `RouterEvent`. -/
def routerStep (c : CameraController) (e : RouterEvent) : CameraController :=
  match e with
  | .dev e => (c.process_events e).1
  | .key e => c.process_keyed_events e

/-! ## The look-at camera and the GPU uniform record (`camera.rs`,
authoritative source) -/

/-- 4 x 4 matrix over the rational model of `f32`
(mirrors `cgmath::Matrix4<f32>`). -/
abbrev Mat4 := Matrix (Fin 4) (Fin 4) ℚ

/-- The `OPENGL_TO_WGPU_MATRIX` constant of `camera.rs`. The source lists its
entries column-major (the `cgmath::Matrix4::new` argument order); here they
are written as the resulting rows. -/
def OPENGL_TO_WGPU_MATRIX : Mat4 :=
  !![1, 0, 0, 0;
     0, 1, 0, 0;
     0, 0, 1/2, 0;
     0, 0, 1/2, 1]

/-- The `Camera` struct of `camera.rs`. -/
structure Camera where
  eye : Vec3
  target : Vec3
  up : Vec3
  aspect : ℚ
  fovy : ℚ
  znear : ℚ
  zfar : ℚ
  deriving DecidableEq, Repr

/-- `Camera::build_view_projection_matrix` of `camera.rs`. The two
linear-algebra primitives of the external math library
(`cgmath::Matrix4::look_at_rh` and `cgmath::perspective`) are taken as
function parameters: the source composes their results with the fixed
basis-conversion constant. The camera is returned alongside the matrix to
mirror the immutable `&self` receiver: the post-state of the call. -/
def Camera.build_view_projection_matrix
    (look_at_rh : Vec3 → Vec3 → Vec3 → Mat4)
    (perspective : ℚ → ℚ → ℚ → ℚ → Mat4)
    (c : Camera) : Mat4 × Camera :=
  let view := look_at_rh c.eye c.target c.up
  let proj := perspective c.fovy c.aspect c.znear c.zfar
  (OPENGL_TO_WGPU_MATRIX * proj * view, c)

/-- `Point3::to_homogeneous` — the eye position as 4 floats with `w = 1`. -/
def Vec3.to_homogeneous (v : Vec3) : Fin 4 → ℚ :=
  ![v.x, v.y, v.z, 1]

/-- The `CameraUniform` struct of `camera.rs`:
`{ view_position: [f32; 4], view_proj: [[f32; 4]; 4] }`. -/
structure CameraUniform where
  view_position : Fin 4 → ℚ
  view_proj : Mat4

/-- Byte size of the `repr(C)` layout of `CameraUniform`: 4 + 16 fields of
4-byte `f32`, every field 4-byte aligned, hence no implicit padding. -/
def CameraUniform.size_bytes : ℕ := 4 * 4 + 4 * 4 * 4

/-- `CameraUniform::new` — zero position and identity matrix. -/
def CameraUniform.new : CameraUniform :=
  { view_position := ![0, 0, 0, 0]
    view_proj := 1 }

/-- `CameraUniform::update_view_proj` of `camera.rs` — overwrites both fields
of the receiver `u` from the camera (the external matrix primitives are passed
through to `build_view_projection_matrix`). -/
def CameraUniform.update_view_proj
    (look_at_rh : Vec3 → Vec3 → Vec3 → Mat4)
    (perspective : ℚ → ℚ → ℚ → ℚ → Mat4)
    (u : CameraUniform) (camera : Camera) : CameraUniform :=
  { u with
    view_position := camera.eye.to_homogeneous
    view_proj := (camera.build_view_projection_matrix look_at_rh perspective).1 }

/-! ## Helper lemmas -/

lemma pitch_eps_pos : (0 : ℚ) < PITCH_EPS := by norm_num [PITCH_EPS]

lemma pitch_safe_lo_le_hi : -FRAC_PI_2 + PITCH_EPS ≤ FRAC_PI_2 - PITCH_EPS := by
  norm_num [FRAC_PI_2, PITCH_EPS]

lemma clampQ_mem (lo hi x : ℚ) (h : lo ≤ hi) :
    lo ≤ clampQ lo hi x ∧ clampQ lo hi x ≤ hi := by
  refine ⟨le_max_left _ _, ?_⟩
  exact max_le h (min_le_right _ _)

lemma pitchLo_ge (b : OrbitCameraBounds) : -FRAC_PI_2 + PITCH_EPS ≤ b.pitchLo := by
  unfold OrbitCameraBounds.pitchLo
  cases b.min_pitch with
  | none => exact le_rfl
  | some m => exact le_max_right _ _

lemma pitchHi_le (b : OrbitCameraBounds) : b.pitchHi ≤ FRAC_PI_2 - PITCH_EPS := by
  unfold OrbitCameraBounds.pitchHi
  cases b.max_pitch with
  | none => exact le_rfl
  | some m => exact min_le_right _ _

lemma add_pitch_bounds (c : OrbitCamera) (d : ℚ) : (c.add_pitch d).bounds = c.bounds := rfl

lemma add_pitch_mem (c : OrbitCamera) (d : ℚ) (h : c.bounds.pitchLo ≤ c.bounds.pitchHi) :
    -FRAC_PI_2 + PITCH_EPS ≤ (c.add_pitch d).pitch
      ∧ (c.add_pitch d).pitch ≤ FRAC_PI_2 - PITCH_EPS := by
  have hm := clampQ_mem c.bounds.pitchLo c.bounds.pitchHi (c.pitch + d) h
  exact ⟨le_trans (pitchLo_ge c.bounds) hm.1, le_trans hm.2 (pitchHi_le c.bounds)⟩

lemma foldl_add_pitch_mem :
    ∀ (ds : List ℚ) (c : OrbitCamera), ds ≠ [] →
      c.bounds.pitchLo ≤ c.bounds.pitchHi →
      -FRAC_PI_2 + PITCH_EPS ≤ (ds.foldl OrbitCamera.add_pitch c).pitch
        ∧ (ds.foldl OrbitCamera.add_pitch c).pitch ≤ FRAC_PI_2 - PITCH_EPS := by
  intro ds
  induction ds with
  | nil => intro c hne _; exact absurd rfl hne
  | cons d rest ih =>
    intro c _ hlh
    rw [List.foldl_cons]
    rcases eq_or_ne rest [] with hr | hr
    · subst hr
      simpa using add_pitch_mem c d hlh
    · have hb : (c.add_pitch d).bounds.pitchLo ≤ (c.add_pitch d).bounds.pitchHi := by
        rw [add_pitch_bounds]; exact hlh
      exact ih (c.add_pitch d) hr hb

lemma frac_pi_sub_eps_lt_half_pi : ((FRAC_PI_2 - PITCH_EPS : ℚ) : ℝ) < Real.pi / 2 := by
  have hpi := Real.pi_gt_d6
  have h : ((FRAC_PI_2 - PITCH_EPS : ℚ) : ℝ) = 13176795 / 8388608 - 1 / 100 := by
    norm_num [FRAC_PI_2, PITCH_EPS]
  rw [h]
  linarith

/-! ## Claim theorems -/

/-- Claim C1: for every initial OrbitState and every finite (nonempty)
sequence of `add_pitch` calls with arbitrary deltas, the resulting pitch lies
strictly within `(-pi/2, pi/2)`, regardless of whether the configured
`min_pitch` / `max_pitch` bounds are wider than that interval or absent. -/
theorem add_pitch_strict_pi_bound (c : OrbitCamera) (ds : List ℚ) (hne : ds ≠ [])
    (hmin : ∀ m, c.bounds.min_pitch = some m → m ≤ -FRAC_PI_2)
    (hmax : ∀ m, c.bounds.max_pitch = some m → FRAC_PI_2 ≤ m) :
    -(Real.pi / 2) < (((ds.foldl OrbitCamera.add_pitch c).pitch : ℚ) : ℝ)
      ∧ (((ds.foldl OrbitCamera.add_pitch c).pitch : ℚ) : ℝ) < Real.pi / 2 := by
  have hlo : c.bounds.pitchLo = -FRAC_PI_2 + PITCH_EPS := by
    unfold OrbitCameraBounds.pitchLo
    cases h : c.bounds.min_pitch with
    | none => rfl
    | some m =>
      have hm := hmin m h
      have : m ≤ -FRAC_PI_2 + PITCH_EPS := by linarith [pitch_eps_pos]
      exact max_eq_right this
  have hhi : c.bounds.pitchHi ≤ FRAC_PI_2 - PITCH_EPS := pitchHi_le c.bounds
  have hlh : c.bounds.pitchLo ≤ c.bounds.pitchHi := by
    rw [hlo]
    unfold OrbitCameraBounds.pitchHi
    cases h : c.bounds.max_pitch with
    | none => exact pitch_safe_lo_le_hi
    | some m =>
      have hm := hmax m h
      refine le_min ?_ pitch_safe_lo_le_hi
      linarith [pitch_eps_pos, pitch_safe_lo_le_hi]
  have hq := foldl_add_pitch_mem ds c hne hlh
  have h1 : ((-FRAC_PI_2 + PITCH_EPS : ℚ) : ℝ) ≤ ((ds.foldl OrbitCamera.add_pitch c).pitch : ℝ) := by
    exact_mod_cast hq.1
  have h2 : (((ds.foldl OrbitCamera.add_pitch c).pitch : ℚ) : ℝ) ≤ ((FRAC_PI_2 - PITCH_EPS : ℚ) : ℝ) := by
    exact_mod_cast hq.2
  have hneg : ((-FRAC_PI_2 + PITCH_EPS : ℚ) : ℝ) = -((FRAC_PI_2 - PITCH_EPS : ℚ) : ℝ) := by
    push_cast
    ring
  constructor
  · rw [hneg] at h1
    linarith [frac_pi_sub_eps_lt_half_pi]
  · linarith [frac_pi_sub_eps_lt_half_pi]

/-- Witness for C1: the bound instantiated at the camera built in
`Application::new` after a single `add_pitch(1.0)`. -/
theorem add_pitch_strict_pi_bound_witness :
    -(Real.pi / 2) < ((([(1 : ℚ)].foldl OrbitCamera.add_pitch mainInitCamera).pitch : ℚ) : ℝ)
      ∧ ((([(1 : ℚ)].foldl OrbitCamera.add_pitch mainInitCamera).pitch : ℚ) : ℝ) < Real.pi / 2 :=
  add_pitch_strict_pi_bound mainInitCamera [1] (by decide)
    (by intro m hm; exact Option.noConfusion hm)
    (by intro m hm; exact Option.noConfusion hm)

/-- Validity of a distance bound pair, as assumed by the spec: a configured
minimum is positive, and a configured maximum is not below the effective
lower end of the interval. -/
def validDistanceBounds (b : OrbitCameraBounds) : Prop :=
  (∀ m, b.min_distance = some m → 0 < m)
    ∧ (∀ M, b.max_distance = some M → b.distLo ≤ M)

lemma f32_epsilon_pos : (0 : ℚ) < F32_EPSILON := by norm_num [F32_EPSILON]

lemma distLo_pos (b : OrbitCameraBounds) (hv : validDistanceBounds b) : 0 < b.distLo := by
  unfold OrbitCameraBounds.distLo
  cases h : b.min_distance with
  | none => simpa using f32_epsilon_pos
  | some m => simpa using hv.1 m h

lemma add_distance_bounds (c : OrbitCamera) (d : ℚ) :
    (c.add_distance d).bounds = c.bounds := rfl

lemma add_distance_mem (c : OrbitCamera) (d : ℚ) (hv : validDistanceBounds c.bounds) :
    c.bounds.distLo ≤ (c.add_distance d).distance
      ∧ ∀ M, c.bounds.max_distance = some M → (c.add_distance d).distance ≤ M := by
  cases h : c.bounds.max_distance with
  | none =>
    refine ⟨?_, ?_⟩
    · simp [OrbitCamera.add_distance, h]
    · intro M hM
      exact Option.noConfusion hM
  | some M =>
    refine ⟨?_, ?_⟩
    · simp only [OrbitCamera.add_distance, h]
      exact le_min (le_max_left _ _) (hv.2 M h)
    · intro M2 hM2
      have hMM : M = M2 := Option.some.inj hM2
      simp only [OrbitCamera.add_distance, h, ← hMM]
      exact min_le_right _ _

lemma foldl_add_distance_mem :
    ∀ (ds : List ℚ) (c : OrbitCamera), ds ≠ [] → validDistanceBounds c.bounds →
      c.bounds.distLo ≤ (ds.foldl OrbitCamera.add_distance c).distance
        ∧ ∀ M, c.bounds.max_distance = some M →
            (ds.foldl OrbitCamera.add_distance c).distance ≤ M := by
  intro ds
  induction ds with
  | nil => intro c hne _; exact absurd rfl hne
  | cons d rest ih =>
    intro c _ hv
    rw [List.foldl_cons]
    rcases eq_or_ne rest [] with hr | hr
    · subst hr
      simpa using add_distance_mem c d hv
    · have hv2 : validDistanceBounds (c.add_distance d).bounds := by
        rw [add_distance_bounds]; exact hv
      have := ih (c.add_distance d) hr hv2
      rw [add_distance_bounds] at this
      exact this

/-- Claim C2: for every valid configured distance bound pair and every
nonempty sequence of `add_distance` calls, the resulting distance lies in
`[min_distance, max_distance]` where configured and is always strictly
positive (at least the small positive epsilon when `min_distance` is unset);
in particular the camera of `Application::new` (distance 2.0, min_distance
1.1) reaches exactly distance 1.1 on `add_distance(-5.0)`. -/
theorem add_distance_within_bounds (c : OrbitCamera) (ds : List ℚ) (hne : ds ≠ [])
    (hv : validDistanceBounds c.bounds) :
    (∀ m, c.bounds.min_distance = some m →
        m ≤ (ds.foldl OrbitCamera.add_distance c).distance)
      ∧ (∀ M, c.bounds.max_distance = some M →
          (ds.foldl OrbitCamera.add_distance c).distance ≤ M)
      ∧ 0 < (ds.foldl OrbitCamera.add_distance c).distance
      ∧ (c.bounds.min_distance = none →
          F32_EPSILON ≤ (ds.foldl OrbitCamera.add_distance c).distance)
      ∧ (mainInitCamera.add_distance (-5)).distance = 11 / 10 := by
  have hm := foldl_add_distance_mem ds c hne hv
  refine ⟨?_, hm.2, ?_, ?_, ?_⟩
  · intro m hmin
    have : c.bounds.distLo = m := by
      unfold OrbitCameraBounds.distLo
      rw [hmin]
      rfl
    rw [← this]
    exact hm.1
  · exact lt_of_lt_of_le (distLo_pos c.bounds hv) hm.1
  · intro hnone
    have : c.bounds.distLo = F32_EPSILON := by
      unfold OrbitCameraBounds.distLo
      rw [hnone]
      rfl
    rw [← this]
    exact hm.1
  · show (max mainInitCamera.bounds.distLo (mainInitCamera.distance + -5)) = 11 / 10
    norm_num [mainInitCamera, OrbitCamera.new, OrbitCameraBounds.distLo]

/-- Witness for C2: the invariant instantiated at the camera of
`Application::new` with the single zoom-in `add_distance(-5.0)` of the spec
scenario. -/
theorem add_distance_within_bounds_witness :
    (∀ m, mainInitCamera.bounds.min_distance = some m →
        m ≤ (([(-5 : ℚ)].foldl OrbitCamera.add_distance mainInitCamera).distance))
      ∧ (∀ M, mainInitCamera.bounds.max_distance = some M →
          ([(-5 : ℚ)].foldl OrbitCamera.add_distance mainInitCamera).distance ≤ M)
      ∧ 0 < ([(-5 : ℚ)].foldl OrbitCamera.add_distance mainInitCamera).distance
      ∧ (mainInitCamera.bounds.min_distance = none →
          F32_EPSILON ≤ ([(-5 : ℚ)].foldl OrbitCamera.add_distance mainInitCamera).distance)
      ∧ (mainInitCamera.add_distance (-5)).distance = 11 / 10 :=
  add_distance_within_bounds mainInitCamera [-5] (by decide)
    ⟨by
      intro m hm
      have h2 : mainInitCamera.bounds.min_distance = some ((11 : ℚ) / 10) := rfl
      rw [h2] at hm
      rw [← Option.some.inj hm]
      norm_num,
     by intro M hM; exact Option.noConfusion hM⟩

/-- Claim C3 counterexample: from `CameraController::new`, a primary-button
press (which sets `is_drag_rotate`) followed by a left-shift press through
`process_keyed_events` (which sets `is_pan` unconditionally) leaves both flags
true at once, contradicting the claimed mutual exclusion. -/
theorem router_flags_both_true_counterexample :
    (List.foldl routerStep (CameraController.new (1 / 400) (1 / 10))
        [RouterEvent.dev (DeviceEvent.Button 1 true),
         RouterEvent.key (KeyEvent.ShiftLeft true)]).is_drag_rotate = true
      ∧ (List.foldl routerStep (CameraController.new (1 / 400) (1 / 10))
        [RouterEvent.dev (DeviceEvent.Button 1 true),
         RouterEvent.key (KeyEvent.ShiftLeft true)]).is_pan = true := by
  decide

lemma process_events_is_pan (c : CameraController) (e : DeviceEvent) (h : c.is_pan = false) :
    ((c.process_events e).1).is_pan = false := by
  cases e with
  | Button b p =>
    by_cases hb : b = 1
    · simp [CameraController.process_events, hb, h]
    · simp [CameraController.process_events, hb, h]
  | MouseWheel d => simpa [CameraController.process_events] using h
  | MouseMotion dx dy =>
    by_cases hd : c.is_drag_rotate <;>
      simp [CameraController.process_events, hd, h]
  | Other => simpa [CameraController.process_events] using h

lemma foldl_process_events_is_pan :
    ∀ (ds : List DeviceEvent) (c : CameraController), c.is_pan = false →
      (ds.foldl (fun c e => (c.process_events e).1) c).is_pan = false := by
  intro ds
  induction ds with
  | nil => intro c h; simpa using h
  | cons e rest ih =>
    intro c h
    rw [List.foldl_cons]
    exact ih _ (process_events_is_pan c e h)

/-- Claim C3, amended: starting from `CameraController::new`, the flags
`is_drag_rotate` and `is_pan` are never both true after any sequence of
`process_events` calls alone; a `process_keyed_events` shift press while a
rotate-drag is active does make both flags true (the ambiguity spec section 9
flags). -/
theorem router_flags_exclusive_without_modifier (rs zs : ℚ) (ds : List DeviceEvent) :
    ¬ ((ds.foldl (fun c e => (c.process_events e).1)
          (CameraController.new rs zs)).is_drag_rotate = true
        ∧ (ds.foldl (fun c e => (c.process_events e).1)
          (CameraController.new rs zs)).is_pan = true) := by
  intro hcontra
  have hp : (ds.foldl (fun c e => (c.process_events e).1)
      (CameraController.new rs zs)).is_pan = false :=
    foldl_process_events_is_pan ds (CameraController.new rs zs) rfl
  rw [hp] at hcontra
  exact Bool.false_ne_true hcontra.2

/-- Witness for the amended C3 at the speeds of `Application::new` and a
concrete press-then-drag device event sequence. -/
theorem router_flags_exclusive_without_modifier_witness :
    ¬ (([DeviceEvent.Button 1 true, DeviceEvent.MouseMotion 2 3].foldl
          (fun c e => (c.process_events e).1)
          (CameraController.new (1 / 400) (1 / 10))).is_drag_rotate = true
        ∧ ([DeviceEvent.Button 1 true, DeviceEvent.MouseMotion 2 3].foldl
          (fun c e => (c.process_events e).1)
          (CameraController.new (1 / 400) (1 / 10))).is_pan = true) :=
  router_flags_exclusive_without_modifier (1 / 400) (1 / 10)
    [DeviceEvent.Button 1 true, DeviceEvent.MouseMotion 2 3]

/-- Claim C4 counterexample: in the reachable router state with both flags
set, a motion delta takes the rotate branch — `pan` is not called even though
`is_pan` is true, so pan does not take priority over rotate. -/
theorem motion_rotate_priority_counterexample :
    ((CameraController.mk (1 / 400) (1 / 10) true true).process_events
        (DeviceEvent.MouseMotion 1 0)).2.1
      = [CameraOp.add_yaw (-(1 / 400)), CameraOp.add_pitch 0]
    ∧ ((CameraController.mk (1 / 400) (1 / 10) true true).process_events
        (DeviceEvent.MouseMotion 1 0)).2.1
      ≠ [CameraOp.pan (1 * (1 / 400)) (0 * (1 / 400))] := by
  refine ⟨?_, ?_⟩ <;> simp [CameraController.process_events]

/-- Claim C4, amended: for every router state with `is_pan = true` and
`is_drag_rotate = false`, a motion delta `(dx, dy)` calls
`pan((dx * rotate_speed, dy * rotate_speed))` and requests a redraw; when a
rotate-drag is also active, rotate takes priority instead. -/
theorem pan_applied_when_not_drag_rotating (c : CameraController) (dx dy : ℚ)
    (hpan : c.is_pan = true) (hrot : c.is_drag_rotate = false) :
    c.process_events (DeviceEvent.MouseMotion dx dy)
      = (c, [CameraOp.pan (dx * c.rotate_speed) (dy * c.rotate_speed)], true) := by
  simp [CameraController.process_events, hpan, hrot]

/-- Witness for the amended C4 at a concrete panning state and delta. -/
theorem pan_applied_when_not_drag_rotating_witness :
    (CameraController.mk (1 / 400) (1 / 10) false true).process_events
        (DeviceEvent.MouseMotion 3 4)
      = (CameraController.mk (1 / 400) (1 / 10) false true,
         [CameraOp.pan (3 * (CameraController.mk (1 / 400) (1 / 10) false true).rotate_speed)
            (4 * (CameraController.mk (1 / 400) (1 / 10) false true).rotate_speed)], true) :=
  pan_applied_when_not_drag_rotating (CameraController.mk (1 / 400) (1 / 10) false true)
    3 4 rfl rfl

lemma clampQ_eq_self (lo hi x : ℚ) (h1 : lo ≤ x) (h2 : x ≤ hi) : clampQ lo hi x = x := by
  unfold clampQ
  rw [min_eq_left h2, max_eq_right h1]

/-- Claim C5: after a primary-button press from a non-pan state (entering the
rotating mode), a motion delta `(dx, dy)` makes exactly the calls
`add_yaw(-dx * rotate_speed)` and `add_pitch(dy * rotate_speed)`; concretely,
with `rotate_speed = 0.0025` and delta `(10, 0)` on the camera of
`Application::new`, yaw decreases by exactly `0.025` and pitch is
unchanged. -/
theorem rotate_after_button_press (c : CameraController) (dx dy : ℚ)
    (hpan : c.is_pan = false) :
    ((c.process_events (DeviceEvent.Button 1 true)).1.process_events
        (DeviceEvent.MouseMotion dx dy)).2
      = ([CameraOp.add_yaw (-dx * c.rotate_speed), CameraOp.add_pitch (dy * c.rotate_speed)],
         true)
    ∧ ((mainInitCamera.add_yaw (-10 * (1 / 400))).add_pitch (0 * (1 / 400))).yaw
        = mainInitCamera.yaw - 1 / 40
    ∧ ((mainInitCamera.add_yaw (-10 * (1 / 400))).add_pitch (0 * (1 / 400))).pitch
        = mainInitCamera.pitch := by
  refine ⟨?_, ?_, ?_⟩
  · simp [CameraController.process_events, hpan]
  · show mainInitCamera.yaw + -10 * (1 / 400) = mainInitCamera.yaw - 1 / 40
    ring
  · show clampQ (-FRAC_PI_2 + PITCH_EPS) (FRAC_PI_2 - PITCH_EPS)
        (mainInitCamera.pitch + 0 * (1 / 400)) = mainInitCamera.pitch
    rw [clampQ_eq_self]
    · ring
    · show -FRAC_PI_2 + PITCH_EPS ≤ 0 + 0 * (1 / 400)
      norm_num [FRAC_PI_2, PITCH_EPS]
    · show (0 : ℚ) + 0 * (1 / 400) ≤ FRAC_PI_2 - PITCH_EPS
      norm_num [FRAC_PI_2, PITCH_EPS]

/-- Witness for C5 with the controller of `Application::new`
(`rotate_speed = 0.0025`) and the spec scenario delta `(10, 0)`. -/
theorem rotate_after_button_press_witness :
    (((CameraController.new (1 / 400) (1 / 10)).process_events
        (DeviceEvent.Button 1 true)).1.process_events (DeviceEvent.MouseMotion 10 0)).2
      = ([CameraOp.add_yaw (-10 * (CameraController.new (1 / 400) (1 / 10)).rotate_speed),
          CameraOp.add_pitch (0 * (CameraController.new (1 / 400) (1 / 10)).rotate_speed)],
         true)
    ∧ ((mainInitCamera.add_yaw (-10 * (1 / 400))).add_pitch (0 * (1 / 400))).yaw
        = mainInitCamera.yaw - 1 / 40
    ∧ ((mainInitCamera.add_yaw (-10 * (1 / 400))).add_pitch (0 * (1 / 400))).pitch
        = mainInitCamera.pitch :=
  rotate_after_button_press (CameraController.new (1 / 400) (1 / 10)) 10 0 rfl

/-- Claim C6: in every router state, a scroll event calls
`add_distance(-s * zoom_speed)` for scroll amount `s`; concretely, scroll
delta `+3.0` with `zoom_speed = 0.1` decreases the distance of the
`Application::new` camera by exactly `0.3` (its clamp to `min_distance = 1.1`
does not bind at `2.0 - 0.3 = 1.7`). -/
theorem scroll_always_add_distance (c : CameraController) (d : MouseScrollDelta) :
    (c.process_events (DeviceEvent.MouseWheel d)).2
      = ([CameraOp.add_distance (-scrollValue d * c.zoom_speed)], true)
    ∧ (mainInitCamera.add_distance (-(3 * (1 / 10)))).distance
        = mainInitCamera.distance - 3 / 10 := by
  constructor
  · rfl
  · show max ((11 : ℚ) / 10) (2 + -(3 * (1 / 10))) = 2 - 3 / 10
    rw [max_eq_right (by norm_num)]
    norm_num

/-- Witness for C6 at the controller of `Application::new`
(`zoom_speed = 0.1`) and a line scroll of `+3.0`. -/
theorem scroll_always_add_distance_witness :
    ((CameraController.new (1 / 400) (1 / 10)).process_events
        (DeviceEvent.MouseWheel (MouseScrollDelta.LineDelta 0 3))).2
      = ([CameraOp.add_distance
            (-scrollValue (MouseScrollDelta.LineDelta 0 3)
              * (CameraController.new (1 / 400) (1 / 10)).zoom_speed)], true)
    ∧ (mainInitCamera.add_distance (-(3 * (1 / 10)))).distance
        = mainInitCamera.distance - 3 / 10 :=
  scroll_always_add_distance (CameraController.new (1 / 400) (1 / 10))
    (MouseScrollDelta.LineDelta 0 3)

/-- Claim C7: `build_view_projection_matrix` is a pure, deterministic function
of the camera state — the call leaves every camera field unchanged, and a
second call on the (unchanged) post-state returns the identical matrix. -/
theorem build_view_projection_deterministic
    (look_at_rh : Vec3 → Vec3 → Vec3 → Mat4)
    (perspective : ℚ → ℚ → ℚ → ℚ → Mat4) (c : Camera) :
    (c.build_view_projection_matrix look_at_rh perspective).2 = c
      ∧ ((c.build_view_projection_matrix look_at_rh perspective).2.build_view_projection_matrix
          look_at_rh perspective).1
        = (c.build_view_projection_matrix look_at_rh perspective).1 :=
  ⟨rfl, rfl⟩

/-- Witness for C7 at a concrete camera and concrete external matrix
primitives. -/
theorem build_view_projection_deterministic_witness :
    ((Camera.mk ⟨0, 0, 5⟩ ⟨0, 0, 0⟩ ⟨0, 1, 0⟩ (16 / 9) 45 (1 / 10) 100).build_view_projection_matrix
        (fun _ _ _ => (0 : Mat4)) (fun _ _ _ _ => (0 : Mat4))).2
      = Camera.mk ⟨0, 0, 5⟩ ⟨0, 0, 0⟩ ⟨0, 1, 0⟩ (16 / 9) 45 (1 / 10) 100
    ∧ (((Camera.mk ⟨0, 0, 5⟩ ⟨0, 0, 0⟩ ⟨0, 1, 0⟩ (16 / 9) 45 (1 / 10) 100).build_view_projection_matrix
          (fun _ _ _ => (0 : Mat4)) (fun _ _ _ _ => (0 : Mat4))).2.build_view_projection_matrix
          (fun _ _ _ => (0 : Mat4)) (fun _ _ _ _ => (0 : Mat4))).1
        = ((Camera.mk ⟨0, 0, 5⟩ ⟨0, 0, 0⟩ ⟨0, 1, 0⟩ (16 / 9) 45 (1 / 10) 100).build_view_projection_matrix
          (fun _ _ _ => (0 : Mat4)) (fun _ _ _ _ => (0 : Mat4))).1 :=
  build_view_projection_deterministic (fun _ _ _ => (0 : Mat4)) (fun _ _ _ _ => (0 : Mat4))
    (Camera.mk ⟨0, 0, 5⟩ ⟨0, 0, 0⟩ ⟨0, 1, 0⟩ (16 / 9) 45 (1 / 10) 100)

/-- Claim C8: `CameraUniform::update_view_proj` overwrites exactly its two
fields — `view_position` becomes the eye position in homogeneous form with
`w = 1`, `view_proj` becomes the current view-projection matrix, the result
does not depend on the previous record, and the `repr(C)` layout is
`4 + 16` tightly packed 4-byte floats, 80 bytes. -/
theorem update_view_proj_overwrites
    (look_at_rh : Vec3 → Vec3 → Vec3 → Mat4)
    (perspective : ℚ → ℚ → ℚ → ℚ → Mat4)
    (u u2 : CameraUniform) (c : Camera) :
    (CameraUniform.update_view_proj look_at_rh perspective u c).view_position
        = ![c.eye.x, c.eye.y, c.eye.z, 1]
      ∧ (CameraUniform.update_view_proj look_at_rh perspective u c).view_proj
          = (c.build_view_projection_matrix look_at_rh perspective).1
      ∧ CameraUniform.update_view_proj look_at_rh perspective u c
          = CameraUniform.update_view_proj look_at_rh perspective u2 c
      ∧ CameraUniform.size_bytes = 80 :=
  ⟨rfl, rfl, rfl, rfl⟩

/-- Witness for C8 at a concrete camera, concrete external matrix primitives
and the freshly constructed uniform record. -/
theorem update_view_proj_overwrites_witness :
    (CameraUniform.update_view_proj (fun _ _ _ => (0 : Mat4)) (fun _ _ _ _ => (0 : Mat4))
        CameraUniform.new
        (Camera.mk ⟨1, 2, 3⟩ ⟨0, 0, 0⟩ ⟨0, 1, 0⟩ (16 / 9) 45 (1 / 10) 100)).view_position
        = ![(1 : ℚ), 2, 3, 1]
      ∧ (CameraUniform.update_view_proj (fun _ _ _ => (0 : Mat4)) (fun _ _ _ _ => (0 : Mat4))
          CameraUniform.new
          (Camera.mk ⟨1, 2, 3⟩ ⟨0, 0, 0⟩ ⟨0, 1, 0⟩ (16 / 9) 45 (1 / 10) 100)).view_proj
          = ((Camera.mk ⟨1, 2, 3⟩ ⟨0, 0, 0⟩ ⟨0, 1, 0⟩ (16 / 9) 45
              (1 / 10) 100).build_view_projection_matrix
            (fun _ _ _ => (0 : Mat4)) (fun _ _ _ _ => (0 : Mat4))).1
      ∧ CameraUniform.update_view_proj (fun _ _ _ => (0 : Mat4)) (fun _ _ _ _ => (0 : Mat4))
          CameraUniform.new
          (Camera.mk ⟨1, 2, 3⟩ ⟨0, 0, 0⟩ ⟨0, 1, 0⟩ (16 / 9) 45 (1 / 10) 100)
          = CameraUniform.update_view_proj (fun _ _ _ => (0 : Mat4)) (fun _ _ _ _ => (0 : Mat4))
            ⟨![5, 5, 5, 5], 1⟩
            (Camera.mk ⟨1, 2, 3⟩ ⟨0, 0, 0⟩ ⟨0, 1, 0⟩ (16 / 9) 45 (1 / 10) 100)
      ∧ CameraUniform.size_bytes = 80 :=
  update_view_proj_overwrites (fun _ _ _ => (0 : Mat4)) (fun _ _ _ _ => (0 : Mat4))
    CameraUniform.new ⟨![5, 5, 5, 5], 1⟩
    (Camera.mk ⟨1, 2, 3⟩ ⟨0, 0, 0⟩ ⟨0, 1, 0⟩ (16 / 9) 45 (1 / 10) 100)

/-- Claim C9: `resize_projection(w, 0)` is a silent no-op — the whole camera,
in particular its aspect, is retained and no division by zero happens — while
for positive height it sets `aspect = width / height`. -/
theorem resize_projection_zero_height (c : OrbitCamera) (width : ℕ) :
    c.resize_projection width 0 = c
      ∧ ∀ height : ℕ, height ≠ 0 →
          (c.resize_projection width height).aspect = (width : ℚ) / (height : ℚ) := by
  constructor
  · simp [OrbitCamera.resize_projection]
  · intro height hh
    simp [OrbitCamera.resize_projection, hh]

/-- Witness for C9 at the camera of `Application::new`, width 800, and the
positive height 600. -/
theorem resize_projection_zero_height_witness :
    mainInitCamera.resize_projection 800 0 = mainInitCamera
      ∧ (mainInitCamera.resize_projection 800 600).aspect
          = ((800 : ℕ) : ℚ) / ((600 : ℕ) : ℚ) :=
  ⟨(resize_projection_zero_height mainInitCamera 800).1,
   (resize_projection_zero_height mainInitCamera 800).2 600 (by decide)⟩

/-- Claim C10: a mouse-wheel event leaves the router (both flags) unchanged,
requests a redraw unconditionally — also in the idle state — and makes exactly
one camera call, `add_distance`, which leaves yaw, pitch and target of the
camera unchanged. -/
theorem wheel_changes_only_distance (c : CameraController) (d : MouseScrollDelta)
    (cam : OrbitCamera) :
    (c.process_events (DeviceEvent.MouseWheel d)).1 = c
      ∧ (c.process_events (DeviceEvent.MouseWheel d)).2
          = ([CameraOp.add_distance (-scrollValue d * c.zoom_speed)], true)
      ∧ (cam.add_distance (-scrollValue d * c.zoom_speed)).yaw = cam.yaw
      ∧ (cam.add_distance (-scrollValue d * c.zoom_speed)).pitch = cam.pitch
      ∧ (cam.add_distance (-scrollValue d * c.zoom_speed)).target = cam.target :=
  ⟨rfl, rfl, rfl, rfl, rfl⟩

/-- Witness for C10 at the idle controller of `Application::new`, a line
scroll of `+3.0`, and the camera of `Application::new`. -/
theorem wheel_changes_only_distance_witness :
    ((CameraController.new (1 / 400) (1 / 10)).process_events
        (DeviceEvent.MouseWheel (MouseScrollDelta.LineDelta 0 3))).1
        = CameraController.new (1 / 400) (1 / 10)
      ∧ ((CameraController.new (1 / 400) (1 / 10)).process_events
          (DeviceEvent.MouseWheel (MouseScrollDelta.LineDelta 0 3))).2
          = ([CameraOp.add_distance
                (-scrollValue (MouseScrollDelta.LineDelta 0 3)
                  * (CameraController.new (1 / 400) (1 / 10)).zoom_speed)], true)
      ∧ (mainInitCamera.add_distance
            (-scrollValue (MouseScrollDelta.LineDelta 0 3)
              * (CameraController.new (1 / 400) (1 / 10)).zoom_speed)).yaw
          = mainInitCamera.yaw
      ∧ (mainInitCamera.add_distance
            (-scrollValue (MouseScrollDelta.LineDelta 0 3)
              * (CameraController.new (1 / 400) (1 / 10)).zoom_speed)).pitch
          = mainInitCamera.pitch
      ∧ (mainInitCamera.add_distance
            (-scrollValue (MouseScrollDelta.LineDelta 0 3)
              * (CameraController.new (1 / 400) (1 / 10)).zoom_speed)).target
          = mainInitCamera.target :=
  wheel_changes_only_distance (CameraController.new (1 / 400) (1 / 10))
    (MouseScrollDelta.LineDelta 0 3) mainInitCamera
